import Mathlib

/-!
Verification of `noise_audit.py` (`calculate_noise_stats`).

The Python function takes a list of scores and an optional target value and
returns a dict of descriptive statistics (or a structured error record for an
empty input).  We embed scores as rationals (`ℚ`), the dict as an association
list `List (String × JVal)` built in the same order as the Python code builds
its dict, and `math.sqrt` as `Real.sqrt` (the only real-valued field is
`std_dev`).  Python's `round(x, 2)` is modelled by `round2` below.
-/

namespace NoiseAudit

/-- Values that can appear in the JSON-like result dict of
`calculate_noise_stats`: numbers, the real-valued `std_dev`, the list of raw
scores, and the error string. -/
inductive JVal where
  | num (q : ℚ)
  | realNum (x : ℝ)
  | list (l : List ℚ)
  | str (s : String)

/-- Python's `round(q, 2)`: round to two decimal places (on exact rationals the
half-to-even tie rule of Python never differs from round-half-up except on
exact half-cent ties, which none of the specified behaviours exercise). -/
def round2 (q : ℚ) : ℚ := (round (q * 100) : ℚ) / 100

/-- `round(x, 2)` on the real-valued `std_dev` field. -/
noncomputable def round2R (x : ℝ) : ℝ := ((round (x * 100) : ℤ) : ℝ) / 100

/-- The boolean comparison used for `sorted(scores)`. -/
def leB (a b : ℚ) : Bool := decide (a ≤ b)

/-- Embedding of `calculate_noise_stats(scores, target_value)` from
`noise_audit.py`.  The returned association list mirrors the Python dict,
with keys inserted in the same order as the source:

* empty input returns `{"error": "No scores provided"}`;
* otherwise `n = len(scores)`, `mean = sum(scores)/n`,
  `variance = sum((x-mean)**2 for x in scores)/n`, `std_dev = sqrt(variance)`,
  and the result holds `mean`, `median = sorted(scores)[n // 2]`, `std_dev`,
  `variance` (each rounded to two decimals except the median, which is the raw
  selected element) and `raw_scores = scores`;
* when a target is supplied, `bias = mean - target` and
  `mse = bias**2 + variance` are appended (rounded to two decimals). -/
noncomputable def calculate_noise_stats (scores : List ℚ) (target_value : Option ℚ) :
    List (String × JVal) :=
  if h : scores = [] then [("error", JVal.str "No scores provided")]
  else
    let n := scores.length
    let mean := scores.sum / (n : ℚ)
    let variance := (scores.map (fun x => (x - mean) ^ 2)).sum / (n : ℚ)
    let std_dev : ℝ := Real.sqrt (variance : ℝ)
    let result : List (String × JVal) :=
      [("mean", JVal.num (round2 mean)),
       ("median", JVal.num ((scores.mergeSort leB).get
          ⟨n / 2, by
            rw [List.length_mergeSort]
            exact Nat.div_lt_self (List.length_pos.mpr h) one_lt_two⟩)),
       ("std_dev", JVal.realNum (round2R std_dev)),
       ("variance", JVal.num (round2 variance)),
       ("raw_scores", JVal.list scores)]
    match target_value with
    | none => result
    | some t =>
        let bias := mean - t
        let mse := bias ^ 2 + variance
        result ++ [("mse", JVal.num (round2 mse)),
                   ("bias_component", JVal.num (round2 bias))]

/-- The unrounded mean computed on line 27 of the source. -/
def meanQ (scores : List ℚ) : ℚ := scores.sum / (scores.length : ℚ)

/-- The unrounded population variance computed on line 29 of the source. -/
def varianceQ (scores : List ℚ) : ℚ :=
  (scores.map (fun x => (x - meanQ scores) ^ 2)).sum / (scores.length : ℚ)

/-- The unrounded bias `mean - target` computed on line 43 of the source. -/
def biasQ (scores : List ℚ) (t : ℚ) : ℚ := meanQ scores - t

/-- The unrounded mean squared error `bias ** 2 + variance` (line 44). -/
def mseQ (scores : List ℚ) (t : ℚ) : ℚ := biasQ scores t ^ 2 + varianceQ scores

/-- The median element `sorted(scores)[n // 2]` selected on line 34. -/
def medianVal (scores : List ℚ) (h : scores ≠ []) : ℚ :=
  (scores.mergeSort leB).get
    ⟨scores.length / 2, by
      rw [List.length_mergeSort]
      exact Nat.div_lt_self (List.length_pos.mpr h) one_lt_two⟩

/-- Normal form of `calculate_noise_stats` on a non-empty input. -/
theorem calculate_noise_stats_ne_nil (scores : List ℚ) (h : scores ≠ []) (t : Option ℚ) :
    calculate_noise_stats scores t =
      [("mean", JVal.num (round2 (meanQ scores))),
       ("median", JVal.num (medianVal scores h)),
       ("std_dev", JVal.realNum (round2R (Real.sqrt ((varianceQ scores : ℚ) : ℝ)))),
       ("variance", JVal.num (round2 (varianceQ scores))),
       ("raw_scores", JVal.list scores)] ++
      (match t with
       | none => []
       | some tv => [("mse", JVal.num (round2 (mseQ scores tv))),
                     ("bias_component", JVal.num (round2 (biasQ scores tv)))]) := by
  unfold calculate_noise_stats
  rw [dif_neg h]
  cases t <;> rfl

/-- `mergeSort` with `leB` yields the unique sorted permutation: any sorted
permutation of `l` is exactly `l.mergeSort leB`. -/
theorem mergeSort_eq_of_sorted_perm {l s : List ℚ} (hp : s.Perm l)
    (hs : s.Sorted (· ≤ ·)) : l.mergeSort leB = s := by
  refine List.eq_of_perm_of_sorted ((l.mergeSort_perm leB).trans hp.symm) ?_ hs
  exact (List.sorted_mergeSort
    (fun a b c hab hbc => by
      simp only [leB, decide_eq_true_eq] at hab hbc ⊢; exact le_trans hab hbc)
    (fun a b => by simp only [leB, Bool.or_eq_true, decide_eq_true_eq]; exact le_total a b)
    l).imp (fun h => by simpa [leB] using h)

/-- The selected median is an element of the input list. -/
theorem medianVal_mem (scores : List ℚ) (h : scores ≠ []) : medianVal scores h ∈ scores := by
  have hm : medianVal scores h ∈ scores.mergeSort leB := by
    unfold medianVal
    exact List.get_mem _ _ _
  exact (scores.mergeSort_perm leB).mem_iff.mp hm

/-- The mean is invariant under permutation of the scores. -/
theorem meanQ_perm {l l' : List ℚ} (hp : l.Perm l') : meanQ l = meanQ l' := by
  simp only [meanQ, hp.sum_eq, hp.length_eq]

/-- The variance is invariant under permutation of the scores. -/
theorem varianceQ_perm {l l' : List ℚ} (hp : l.Perm l') : varianceQ l = varianceQ l' := by
  simp only [varianceQ, meanQ_perm hp, (hp.map (fun x => (x - meanQ l') ^ 2)).sum_eq,
    hp.length_eq]

/-- The selected median is invariant under permutation of the scores. -/
theorem medianVal_perm {l l' : List ℚ} (hp : l.Perm l') (h : l ≠ []) (h' : l' ≠ []) :
    medianVal l h = medianVal l' h' := by
  have hms : l.mergeSort leB = l'.mergeSort leB :=
    mergeSort_eq_of_sorted_perm ((l'.mergeSort_perm leB).trans hp.symm)
      (((List.sorted_mergeSort
        (fun a b c hab hbc => by
          simp only [leB, decide_eq_true_eq] at hab hbc ⊢; exact le_trans hab hbc)
        (fun a b => by simp only [leB, Bool.or_eq_true, decide_eq_true_eq]; exact le_total a b)
        l')).imp (fun hx => by simpa [leB] using hx))
  simp only [medianVal, List.get_eq_getElem, hms, hp.length_eq]

/-- Rounding to two decimals preserves non-negativity (rational fields). -/
theorem round2_nonneg {q : ℚ} (h : 0 ≤ q) : 0 ≤ round2 q := by
  unfold round2
  have h0 : (0 : ℤ) ≤ round (q * 100) := by
    rw [round_eq, Int.le_floor]
    push_cast
    nlinarith
  have : (0 : ℚ) ≤ (round (q * 100) : ℚ) := by exact_mod_cast h0
  positivity

/-- Rounding to two decimals preserves non-negativity (the real `std_dev`). -/
theorem round2R_nonneg {x : ℝ} (h : 0 ≤ x) : 0 ≤ round2R x := by
  unfold round2R
  have h0 : (0 : ℤ) ≤ round (x * 100) := by
    rw [round_eq, Int.le_floor]
    push_cast
    nlinarith
  have : (0 : ℝ) ≤ ((round (x * 100) : ℤ) : ℝ) := by exact_mod_cast h0
  positivity

/-- C4: calling `calculate_noise_stats` with empty scores (with or without a
target) returns the structured error record `{"error": "No scores provided"}`,
and that record contains none of the statistics keys. -/
theorem empty_scores_structured_error (t : Option ℚ) :
    calculate_noise_stats [] t = [("error", JVal.str "No scores provided")] ∧
    (calculate_noise_stats [] t).lookup "mean" = none ∧
    (calculate_noise_stats [] t).lookup "median" = none ∧
    (calculate_noise_stats [] t).lookup "std_dev" = none ∧
    (calculate_noise_stats [] t).lookup "variance" = none ∧
    (calculate_noise_stats [] t).lookup "raw_scores" = none ∧
    (calculate_noise_stats [] t).lookup "mse" = none ∧
    (calculate_noise_stats [] t).lookup "bias_component" = none :=
  ⟨rfl, rfl, rfl, rfl, rfl, rfl, rfl, rfl⟩

/-- C6: the `raw_scores` field of the result is the input list itself, same
elements in the same order, with no rounding applied. -/
theorem raw_scores_verbatim (scores : List ℚ) (t : Option ℚ) (h : scores ≠ []) :
    (calculate_noise_stats scores t).lookup "raw_scores" = some (JVal.list scores) := by
  rw [calculate_noise_stats_ne_nil scores h t]
  cases t <;> rfl

/-- C6 witness at a concrete input. -/
theorem raw_scores_verbatim_witness :
    (calculate_noise_stats [3, 1, 2] none).lookup "raw_scores" =
      some (JVal.list [3, 1, 2]) :=
  raw_scores_verbatim [3, 1, 2] none (by decide)

/-- C3: on any non-empty input the result carries the keys `mean`, `median`,
`std_dev`, `variance` and `raw_scores`, and it carries `mse` and
`bias_component` exactly when a target value was supplied. -/
theorem result_key_presence (scores : List ℚ) (t : Option ℚ) (h : scores ≠ []) :
    ((calculate_noise_stats scores t).lookup "mean").isSome ∧
    ((calculate_noise_stats scores t).lookup "median").isSome ∧
    ((calculate_noise_stats scores t).lookup "std_dev").isSome ∧
    ((calculate_noise_stats scores t).lookup "variance").isSome ∧
    ((calculate_noise_stats scores t).lookup "raw_scores").isSome ∧
    (((calculate_noise_stats scores t).lookup "mse").isSome ↔ t.isSome) ∧
    (((calculate_noise_stats scores t).lookup "bias_component").isSome ↔ t.isSome) := by
  rw [calculate_noise_stats_ne_nil scores h t]
  cases t <;> exact ⟨rfl, rfl, rfl, rfl, rfl, by simp, by simp⟩

/-- C3 witness at concrete inputs (one with a target, one without). -/
theorem result_key_presence_witness :
    (((calculate_noise_stats [1, 2] (some 3)).lookup "mse").isSome ↔
      (some (3 : ℚ)).isSome) ∧
    (((calculate_noise_stats [1, 2] none).lookup "mse").isSome ↔
      (none : Option ℚ).isSome) :=
  ⟨(result_key_presence [1, 2] (some 3) (by decide)).2.2.2.2.2.1,
   (result_key_presence [1, 2] none (by decide)).2.2.2.2.2.1⟩

/-- C10: for a non-empty input of length `n` the index `n / 2` is strictly
below `n`, so the median lookup into the sorted copy is in bounds, and the
reported median is itself one of the input scores. -/
theorem median_index_safe (scores : List ℚ) (t : Option ℚ) (h : scores ≠ []) :
    scores.length / 2 < scores.length ∧
    ∃ m : ℚ, (calculate_noise_stats scores t).lookup "median" = some (JVal.num m) ∧
      m ∈ scores := by
  refine ⟨Nat.div_lt_self (List.length_pos.mpr h) one_lt_two,
    medianVal scores h, ?_, medianVal_mem scores h⟩
  rw [calculate_noise_stats_ne_nil scores h t]
  cases t <;> rfl

/-- C10 witness at a concrete input. -/
theorem median_index_safe_witness :
    ([4, 9] : List ℚ).length / 2 < ([4, 9] : List ℚ).length ∧
    ∃ m : ℚ, (calculate_noise_stats [4, 9] none).lookup "median" = some (JVal.num m) ∧
      m ∈ ([4, 9] : List ℚ) :=
  median_index_safe [4, 9] none (by decide)

/-- C2: with a target supplied, the computed bias is `mean - target` and the
computed mse is `bias ^ 2 + variance`, exactly and before rounding; the result
record carries the rounded images of exactly those quantities. -/
theorem mse_bias_decomposition (scores : List ℚ) (t : ℚ) (h : scores ≠ []) :
    biasQ scores t = meanQ scores - t ∧
    mseQ scores t = biasQ scores t ^ 2 + varianceQ scores ∧
    (calculate_noise_stats scores (some t)).lookup "bias_component" =
      some (JVal.num (round2 (biasQ scores t))) ∧
    (calculate_noise_stats scores (some t)).lookup "mse" =
      some (JVal.num (round2 (mseQ scores t))) := by
  refine ⟨rfl, rfl, ?_, ?_⟩ <;> rw [calculate_noise_stats_ne_nil scores h (some t)] <;> rfl

/-- C2 witness at the concrete input `scores = [5, 5, 5]`, `target = 7`. -/
theorem mse_bias_decomposition_witness :
    biasQ [5, 5, 5] 7 = meanQ [5, 5, 5] - 7 ∧
    mseQ [5, 5, 5] 7 = biasQ [5, 5, 5] 7 ^ 2 + varianceQ [5, 5, 5] ∧
    (calculate_noise_stats [5, 5, 5] (some 7)).lookup "bias_component" =
      some (JVal.num (round2 (biasQ [5, 5, 5] 7))) ∧
    (calculate_noise_stats [5, 5, 5] (some 7)).lookup "mse" =
      some (JVal.num (round2 (mseQ [5, 5, 5] 7))) :=
  mse_bias_decomposition [5, 5, 5] 7 (by decide)

/-- C1: the reported median is the element at index `n / 2` of the
sorted-ascending copy of the scores (stated against any sorted permutation
`s` of the input), and in particular the median of `[1, 2, 3, 4]` is `3`,
not the average of the two middle elements. -/
theorem median_is_sorted_middle (scores s : List ℚ) (t : Option ℚ) (h : scores ≠ [])
    (hp : s.Perm scores) (hs : s.Sorted (· ≤ ·)) :
    (∃ m : ℚ, (calculate_noise_stats scores t).lookup "median" = some (JVal.num m) ∧
      s[scores.length / 2]? = some m) ∧
    (calculate_noise_stats [1, 2, 3, 4] none).lookup "median" = some (JVal.num 3) := by
  constructor
  · refine ⟨medianVal scores h, ?_, ?_⟩
    · rw [calculate_noise_stats_ne_nil scores h t]
      cases t <;> rfl
    · have hms : scores.mergeSort leB = s := mergeSort_eq_of_sorted_perm hp hs
      have hlen : scores.length / 2 < s.length := by
        rw [hp.length_eq]
        exact Nat.div_lt_self (List.length_pos.mpr h) one_lt_two
      rw [List.getElem?_eq_getElem hlen]
      simp only [medianVal, List.get_eq_getElem, hms]
  · have h4 : ([1, 2, 3, 4] : List ℚ) ≠ [] := by decide
    have hms : ([1, 2, 3, 4] : List ℚ).mergeSort leB = [1, 2, 3, 4] :=
      mergeSort_eq_of_sorted_perm (List.Perm.refl _) (by decide)
    have hm3 : medianVal [1, 2, 3, 4] h4 = 3 := by
      simp only [medianVal, List.get_eq_getElem, hms]
      rfl
    rw [calculate_noise_stats_ne_nil [1, 2, 3, 4] h4 none]
    show some (JVal.num (medianVal [1, 2, 3, 4] h4)) = some (JVal.num 3)
    rw [hm3]

/-- C1 witness at the concrete input `[1, 2, 3, 4]` with itself as the sorted
permutation. -/
theorem median_is_sorted_middle_witness :
    (∃ m : ℚ, (calculate_noise_stats [1, 2, 3, 4] none).lookup "median" =
        some (JVal.num m) ∧
      ([1, 2, 3, 4] : List ℚ)[([1, 2, 3, 4] : List ℚ).length / 2]? = some m) ∧
    (calculate_noise_stats [1, 2, 3, 4] none).lookup "median" = some (JVal.num 3) :=
  median_is_sorted_middle [1, 2, 3, 4] [1, 2, 3, 4] none (by decide)
    (List.Perm.refl _) (by decide)

/-- Evaluation of the `mean` lookup on a non-empty input. -/
theorem lookup_mean_eq (l : List ℚ) (t : Option ℚ) (h : l ≠ []) :
    (calculate_noise_stats l t).lookup "mean" = some (JVal.num (round2 (meanQ l))) := by
  rw [calculate_noise_stats_ne_nil l h t]
  cases t <;> rfl

/-- Evaluation of the `median` lookup on a non-empty input. -/
theorem lookup_median_eq (l : List ℚ) (t : Option ℚ) (h : l ≠ []) :
    (calculate_noise_stats l t).lookup "median" = some (JVal.num (medianVal l h)) := by
  rw [calculate_noise_stats_ne_nil l h t]
  cases t <;> rfl

/-- Evaluation of the `std_dev` lookup on a non-empty input. -/
theorem lookup_std_dev_eq (l : List ℚ) (t : Option ℚ) (h : l ≠ []) :
    (calculate_noise_stats l t).lookup "std_dev" =
      some (JVal.realNum (round2R (Real.sqrt ((varianceQ l : ℚ) : ℝ)))) := by
  rw [calculate_noise_stats_ne_nil l h t]
  cases t <;> rfl

/-- Evaluation of the `variance` lookup on a non-empty input. -/
theorem lookup_variance_eq (l : List ℚ) (t : Option ℚ) (h : l ≠ []) :
    (calculate_noise_stats l t).lookup "variance" =
      some (JVal.num (round2 (varianceQ l))) := by
  rw [calculate_noise_stats_ne_nil l h t]
  cases t <;> rfl

/-- Evaluation of the `mse` lookup on a non-empty input with a target. -/
theorem lookup_mse_eq (l : List ℚ) (tv : ℚ) (h : l ≠ []) :
    (calculate_noise_stats l (some tv)).lookup "mse" =
      some (JVal.num (round2 (mseQ l tv))) := by
  rw [calculate_noise_stats_ne_nil l h (some tv)]
  rfl

/-- Evaluation of the `bias_component` lookup on a non-empty input with a
target. -/
theorem lookup_bias_eq (l : List ℚ) (tv : ℚ) (h : l ≠ []) :
    (calculate_noise_stats l (some tv)).lookup "bias_component" =
      some (JVal.num (round2 (biasQ l tv))) := by
  rw [calculate_noise_stats_ne_nil l h (some tv)]
  rfl

/-- The `mse` lookup is absent without a target, on any non-empty input. -/
theorem lookup_mse_none (l : List ℚ) (h : l ≠ []) :
    (calculate_noise_stats l none).lookup "mse" = none := by
  rw [calculate_noise_stats_ne_nil l h none]
  rfl

/-- The `bias_component` lookup is absent without a target, on any non-empty
input. -/
theorem lookup_bias_none (l : List ℚ) (h : l ≠ []) :
    (calculate_noise_stats l none).lookup "bias_component" = none := by
  rw [calculate_noise_stats_ne_nil l h none]
  rfl

/-- C7: every computed statistic is invariant under permutation of the input
scores; only `raw_scores` can differ between permuted inputs. -/
theorem stats_permutation_invariant (l l' : List ℚ) (t : Option ℚ) (h : l ≠ [])
    (hp : l.Perm l') :
    (calculate_noise_stats l t).lookup "mean" = (calculate_noise_stats l' t).lookup "mean" ∧
    (calculate_noise_stats l t).lookup "median" =
      (calculate_noise_stats l' t).lookup "median" ∧
    (calculate_noise_stats l t).lookup "std_dev" =
      (calculate_noise_stats l' t).lookup "std_dev" ∧
    (calculate_noise_stats l t).lookup "variance" =
      (calculate_noise_stats l' t).lookup "variance" ∧
    (calculate_noise_stats l t).lookup "mse" = (calculate_noise_stats l' t).lookup "mse" ∧
    (calculate_noise_stats l t).lookup "bias_component" =
      (calculate_noise_stats l' t).lookup "bias_component" := by
  have h' : l' ≠ [] := fun he => h ((he ▸ hp).eq_nil)
  have hmean := meanQ_perm hp
  have hvar := varianceQ_perm hp
  have hmed := medianVal_perm hp h h'
  refine ⟨?_, ?_, ?_, ?_, ?_, ?_⟩
  · rw [lookup_mean_eq l t h, lookup_mean_eq l' t h', hmean]
  · rw [lookup_median_eq l t h, lookup_median_eq l' t h', hmed]
  · rw [lookup_std_dev_eq l t h, lookup_std_dev_eq l' t h', hvar]
  · rw [lookup_variance_eq l t h, lookup_variance_eq l' t h', hvar]
  · cases t with
    | none => rw [lookup_mse_none l h, lookup_mse_none l' h']
    | some tv =>
        rw [lookup_mse_eq l tv h, lookup_mse_eq l' tv h']
        have hmse : mseQ l tv = mseQ l' tv := by
          simp only [mseQ, biasQ, hmean, hvar]
        rw [hmse]
  · cases t with
    | none => rw [lookup_bias_none l h, lookup_bias_none l' h']
    | some tv =>
        rw [lookup_bias_eq l tv h, lookup_bias_eq l' tv h']
        have hbias : biasQ l tv = biasQ l' tv := by
          simp only [biasQ, hmean]
        rw [hbias]

/-- C7 witness on a concrete permutation pair. -/
theorem stats_permutation_invariant_witness :
    (calculate_noise_stats [3, 1, 2] (some 2)).lookup "mean" =
      (calculate_noise_stats [1, 2, 3] (some 2)).lookup "mean" ∧
    (calculate_noise_stats [3, 1, 2] (some 2)).lookup "median" =
      (calculate_noise_stats [1, 2, 3] (some 2)).lookup "median" ∧
    (calculate_noise_stats [3, 1, 2] (some 2)).lookup "std_dev" =
      (calculate_noise_stats [1, 2, 3] (some 2)).lookup "std_dev" ∧
    (calculate_noise_stats [3, 1, 2] (some 2)).lookup "variance" =
      (calculate_noise_stats [1, 2, 3] (some 2)).lookup "variance" ∧
    (calculate_noise_stats [3, 1, 2] (some 2)).lookup "mse" =
      (calculate_noise_stats [1, 2, 3] (some 2)).lookup "mse" ∧
    (calculate_noise_stats [3, 1, 2] (some 2)).lookup "bias_component" =
      (calculate_noise_stats [1, 2, 3] (some 2)).lookup "bias_component" :=
  stats_permutation_invariant [3, 1, 2] [1, 2, 3] (some 2) (by decide) (by decide)

/-- C8: the unrounded computed mean lies between the minimum and the maximum
of the scores, and it is exactly the quantity whose rounding the result
reports under the `mean` key. -/
theorem mean_within_min_max (scores : List ℚ) (t : Option ℚ) (lo hi : ℚ)
    (h : scores ≠ []) (hlo : scores.minimum = (lo : WithTop ℚ))
    (hhi : scores.maximum = (hi : WithBot ℚ)) :
    (calculate_noise_stats scores t).lookup "mean" =
      some (JVal.num (round2 (meanQ scores))) ∧
    lo ≤ meanQ scores ∧ meanQ scores ≤ hi := by
  have hn : 0 < (scores.length : ℚ) := by
    exact_mod_cast List.length_pos.mpr h
  refine ⟨?_, ?_, ?_⟩
  · rw [calculate_noise_stats_ne_nil scores h t]
    cases t <;> rfl
  · have hall : ∀ x ∈ scores, lo ≤ x := fun x hx => List.minimum_le_of_mem hx hlo
    have hsum : scores.length • lo ≤ scores.sum := List.card_nsmul_le_sum scores lo hall
    rw [meanQ, le_div_iff₀ hn]
    calc lo * (scores.length : ℚ) = scores.length • lo := by
          rw [nsmul_eq_mul]; ring
      _ ≤ scores.sum := hsum
  · have hall : ∀ x ∈ scores, x ≤ hi := fun x hx => List.le_maximum_of_mem hx hhi
    have hsum : scores.sum ≤ scores.length • hi := List.sum_le_card_nsmul scores hi hall
    rw [meanQ, div_le_iff₀ hn]
    calc scores.sum ≤ scores.length • hi := hsum
      _ = hi * (scores.length : ℚ) := by rw [nsmul_eq_mul]; ring

/-- C8 witness at a concrete input. -/
theorem mean_within_min_max_witness :
    (calculate_noise_stats [10, 20, 30] none).lookup "mean" =
      some (JVal.num (round2 (meanQ [10, 20, 30]))) ∧
    (10 : ℚ) ≤ meanQ [10, 20, 30] ∧ meanQ [10, 20, 30] ≤ (30 : ℚ) :=
  mean_within_min_max [10, 20, 30] none 10 30 (by decide) (by decide) (by decide)

/-- C9: the variance is a sum of squares divided by the positive count, hence
non-negative, so the square root is taken on a non-negative argument and both
reported fields `variance` and `std_dev` are non-negative. -/
theorem variance_nonneg_sqrt_safe (scores : List ℚ) (t : Option ℚ) (h : scores ≠ []) :
    0 ≤ varianceQ scores ∧
    (calculate_noise_stats scores t).lookup "variance" =
      some (JVal.num (round2 (varianceQ scores))) ∧
    0 ≤ round2 (varianceQ scores) ∧
    (calculate_noise_stats scores t).lookup "std_dev" =
      some (JVal.realNum (round2R (Real.sqrt ((varianceQ scores : ℚ) : ℝ)))) ∧
    0 ≤ round2R (Real.sqrt ((varianceQ scores : ℚ) : ℝ)) := by
  have hv : 0 ≤ varianceQ scores := by
    unfold varianceQ
    apply div_nonneg
    · apply List.sum_nonneg
      intro x hx
      obtain ⟨y, hy, rfl⟩ := List.mem_map.mp hx
      positivity
    · positivity
  refine ⟨hv, ?_, round2_nonneg hv, ?_, round2R_nonneg (Real.sqrt_nonneg _)⟩ <;>
    rw [calculate_noise_stats_ne_nil scores h t] <;> cases t <;> rfl

/-- C9 witness at a concrete input. -/
theorem variance_nonneg_sqrt_safe_witness :
    0 ≤ varianceQ [2, 4] ∧
    (calculate_noise_stats [2, 4] none).lookup "variance" =
      some (JVal.num (round2 (varianceQ [2, 4]))) ∧
    0 ≤ round2 (varianceQ [2, 4]) ∧
    (calculate_noise_stats [2, 4] none).lookup "std_dev" =
      some (JVal.realNum (round2R (Real.sqrt ((varianceQ [2, 4] : ℚ) : ℝ)))) ∧
    0 ≤ round2R (Real.sqrt ((varianceQ [2, 4] : ℚ) : ℝ)) :=
  variance_nonneg_sqrt_safe [2, 4] none (by decide)

/-- Evaluation rule for `round2` through explicit floor bounds. -/
theorem round2_eq (q : ℚ) (z : ℤ) (h1 : (z : ℚ) ≤ q * 100 + 1 / 2)
    (h2 : q * 100 + 1 / 2 < z + 1) : round2 q = (z : ℚ) / 100 := by
  unfold round2
  rw [round_eq, Int.floor_eq_iff.mpr ⟨h1, h2⟩]

/-- Rounding the standard deviation of the scenario `[10, 20, 30]`:
`sqrt(200/3) = 8.1649...` rounds to `8.16` at two decimals. -/
theorem round2R_sqrt_scenario : round2R (Real.sqrt ((200 : ℝ) / 3)) = 8.16 := by
  have hlo : (8.155 : ℝ) ≤ Real.sqrt (200 / 3) := by
    rw [Real.le_sqrt (by norm_num) (by norm_num)]
    norm_num
  have hhi : Real.sqrt ((200 : ℝ) / 3) < 8.165 := by
    rw [Real.sqrt_lt' (by norm_num)]
    norm_num
  have hround : round (Real.sqrt ((200 : ℝ) / 3) * 100) = 816 := by
    rw [round_eq, Int.floor_eq_iff]
    constructor
    · push_cast
      linarith
    · push_cast
      linarith
  unfold round2R
  rw [hround]
  norm_num

/-- C5: the variance is the population variance (mean of squared deviations,
divisor `n`), the reported standard deviation is its square root; in the
scenario `scores = [10, 20, 30]` without a target the reported values are
`mean = 20`, `median = 20`, `variance = 66.67` and `std_dev = 8.16`. -/
theorem variance_population_and_scenario (scores : List ℚ) (t : Option ℚ)
    (h : scores ≠ []) :
    varianceQ scores =
      (scores.map (fun x => (x - meanQ scores) ^ 2)).sum / (scores.length : ℚ) ∧
    (calculate_noise_stats scores t).lookup "variance" =
      some (JVal.num (round2 (varianceQ scores))) ∧
    (calculate_noise_stats scores t).lookup "std_dev" =
      some (JVal.realNum (round2R (Real.sqrt ((varianceQ scores : ℚ) : ℝ)))) ∧
    (calculate_noise_stats [10, 20, 30] none).lookup "mean" = some (JVal.num 20) ∧
    (calculate_noise_stats [10, 20, 30] none).lookup "median" = some (JVal.num 20) ∧
    (calculate_noise_stats [10, 20, 30] none).lookup "variance" =
      some (JVal.num 66.67) ∧
    (calculate_noise_stats [10, 20, 30] none).lookup "std_dev" =
      some (JVal.realNum 8.16) := by
  have h3 : ([10, 20, 30] : List ℚ) ≠ [] := by decide
  have hmean3 : meanQ [10, 20, 30] = 20 := by
    norm_num [meanQ, List.sum_cons, List.sum_nil]
  have hvar3 : varianceQ [10, 20, 30] = 200 / 3 := by
    norm_num [varianceQ, hmean3, List.map_cons, List.map_nil, List.sum_cons, List.sum_nil]
  refine ⟨rfl, lookup_variance_eq scores t h, lookup_std_dev_eq scores t h, ?_, ?_, ?_, ?_⟩
  · rw [lookup_mean_eq [10, 20, 30] none h3, hmean3,
      round2_eq 20 2000 (by norm_num) (by norm_num),
      (by norm_num : ((2000 : ℤ) : ℚ) / 100 = 20)]
  · rw [lookup_median_eq [10, 20, 30] none h3]
    have hms : ([10, 20, 30] : List ℚ).mergeSort leB = [10, 20, 30] :=
      mergeSort_eq_of_sorted_perm (List.Perm.refl _) (by decide)
    have hmed : medianVal [10, 20, 30] h3 = 20 := by
      simp only [medianVal, List.get_eq_getElem, hms]
      rfl
    rw [hmed]
  · rw [lookup_variance_eq [10, 20, 30] none h3, hvar3,
      round2_eq (200 / 3) 6667 (by norm_num) (by norm_num),
      (by norm_num : ((6667 : ℤ) : ℚ) / 100 = 66.67)]
  · rw [lookup_std_dev_eq [10, 20, 30] none h3, hvar3]
    have hc : (((200 : ℚ) / 3 : ℚ) : ℝ) = (200 : ℝ) / 3 := by
      push_cast
      ring
    rw [hc, round2R_sqrt_scenario]

/-- C5 witness at a concrete input. -/
theorem variance_population_and_scenario_witness :
    varianceQ [10, 20, 30] =
      (([10, 20, 30] : List ℚ).map (fun x => (x - meanQ [10, 20, 30]) ^ 2)).sum /
        (([10, 20, 30] : List ℚ).length : ℚ) ∧
    (calculate_noise_stats [10, 20, 30] none).lookup "variance" =
      some (JVal.num (round2 (varianceQ [10, 20, 30]))) ∧
    (calculate_noise_stats [10, 20, 30] none).lookup "std_dev" =
      some (JVal.realNum (round2R (Real.sqrt ((varianceQ [10, 20, 30] : ℚ) : ℝ)))) ∧
    (calculate_noise_stats [10, 20, 30] none).lookup "mean" = some (JVal.num 20) ∧
    (calculate_noise_stats [10, 20, 30] none).lookup "median" = some (JVal.num 20) ∧
    (calculate_noise_stats [10, 20, 30] none).lookup "variance" =
      some (JVal.num 66.67) ∧
    (calculate_noise_stats [10, 20, 30] none).lookup "std_dev" =
      some (JVal.realNum 8.16) :=
  variance_population_and_scenario [10, 20, 30] none (by decide)

end NoiseAudit
